import Mathlib

/-!
Verification of `mapentity/models.py` from django-mapentity.

The Python module is shallowly embedded: entity-kind constants and the
permission lookup become Lean string functions, the REST permission map
becomes a template table, the audit-log queries (`creator`, `authors`,
`last_author`) become functions over an explicit list of log entries, the
`latest_updated` classmethods become `Except`-based functions whose caught
exceptions are explicit error values, and `prepare_map_image` becomes a
function from an environment (file freshness, geometry, extent, settings)
to its return value together with the list of side effects it performs.
-/

namespace Mapentity

/-! Section: Entity kind and permission constants (models.py lines 25-57) -/

def ENTITY_LAYER : String := "layer"

def ENTITY_LIST : String := "list"

def ENTITY_DATATABLE_LIST : String := "-drf-list"

def ENTITY_FORMAT_LIST : String := "format_list"

def ENTITY_DETAIL : String := "detail"

def ENTITY_MAPIMAGE : String := "mapimage"

def ENTITY_DOCUMENT : String := "document"

def ENTITY_MARKUP : String := "markup"

def ENTITY_CREATE : String := "add"

def ENTITY_UPDATE : String := "update"

def ENTITY_DELETE : String := "delete"

def ENTITY_UPDATE_GEOM : String := "update_geom"

def ENTITY_KINDS : List String :=
  [ENTITY_LAYER, ENTITY_LIST, ENTITY_DATATABLE_LIST, ENTITY_FORMAT_LIST, ENTITY_DETAIL,
   ENTITY_MAPIMAGE, ENTITY_DOCUMENT, ENTITY_MARKUP, ENTITY_CREATE, ENTITY_UPDATE,
   ENTITY_DELETE, ENTITY_UPDATE_GEOM]

def ENTITY_PERMISSION_CREATE : String := "add"

def ENTITY_PERMISSION_READ : String := "read"

def ENTITY_PERMISSION_UPDATE : String := "change"

def ENTITY_PERMISSION_DELETE : String := "delete"

def ENTITY_PERMISSION_EXPORT : String := "export"

def ENTITY_PERMISSION_UPDATE_GEOM : String := "change_geom"

def ENTITY_PERMISSIONS : List String :=
  [ENTITY_PERMISSION_CREATE, ENTITY_PERMISSION_READ, ENTITY_PERMISSION_UPDATE,
   ENTITY_PERMISSION_UPDATE_GEOM, ENTITY_PERMISSION_DELETE, ENTITY_PERMISSION_EXPORT]

/-! Section: `BaseMapEntityMixin.get_entity_kind_permission` (models.py lines 87-105)

The Python body builds the dict `operations` and evaluates
`operations.get(entity_kind, entity_kind)`; the dict lookup with default is
embedded as an if-chain over the keys of the dict.  The `assert perm in
ENTITY_PERMISSIONS` is embedded by returning `none` when the assertion would
raise `AssertionError`, and `some perm` when the function returns `perm`. -/

def operations_get (entity_kind : String) : String :=
  if entity_kind = ENTITY_CREATE then ENTITY_PERMISSION_CREATE
  else if entity_kind = ENTITY_UPDATE then ENTITY_PERMISSION_UPDATE
  else if entity_kind = ENTITY_UPDATE_GEOM then ENTITY_PERMISSION_UPDATE_GEOM
  else if entity_kind = ENTITY_DELETE then ENTITY_PERMISSION_DELETE
  else if entity_kind = ENTITY_DETAIL then ENTITY_PERMISSION_READ
  else if entity_kind = ENTITY_LAYER then ENTITY_PERMISSION_READ
  else if entity_kind = ENTITY_LIST then ENTITY_PERMISSION_READ
  else if entity_kind = ENTITY_DATATABLE_LIST then ENTITY_PERMISSION_READ
  else if entity_kind = ENTITY_MARKUP then ENTITY_PERMISSION_READ
  else if entity_kind = ENTITY_FORMAT_LIST then ENTITY_PERMISSION_EXPORT
  else if entity_kind = ENTITY_MAPIMAGE then ENTITY_PERMISSION_EXPORT
  else if entity_kind = ENTITY_DOCUMENT then ENTITY_PERMISSION_EXPORT
  else entity_kind

def get_entity_kind_permission (entity_kind : String) : Option String :=
  if operations_get entity_kind ∈ ENTITY_PERMISSIONS then some (operations_get entity_kind)
  else none

/-- Permission mapping as the specification claim words it: `add` to `add`,
`update` and `update_geom` to `change` and `change_geom`, `delete` to
`delete`, the read-style kinds to `read`, the export-style kinds to
`export`. -/
def spec_kind_permission (k : String) : String :=
  if k = "add" then "add"
  else if k = "update" then "change"
  else if k = "update_geom" then "change_geom"
  else if k = "delete" then "delete"
  else if k = "detail" ∨ k = "layer" ∨ k = "list" ∨ k = "-drf-list" ∨ k = "markup" then "read"
  else "export"

/-! Section: `BaseMapEntityMixin.get_layer_url` / `get_datatablelist_url`
(models.py lines 144-146 and 152-154) -/

def get_layer_url (model_name : String) : String :=
  "/api/" ++ model_name.toLower ++ "/drf/" ++ model_name.toLower ++ "s.geojson"

def get_datatablelist_url (model_name : String) : String :=
  "/api/" ++ model_name.toLower ++ "/drf/" ++ model_name.toLower ++ "s.datatables"

/-! Section: `MapEntityRestPermissions.perms_map` (models.py lines 60-69)

Each value of the Python dict is a list of `%`-format templates over the
keys `app_label` and `model_name`; a template is embedded as the list of
its segments, and `render_fmt` embeds the `%` substitution that
`DjangoModelPermissions.get_required_permissions` applies to it. -/

inductive FmtPart
  | lit (s : String)
  | app_label
  | model_name
deriving DecidableEq, Repr

def render_fmt (app model : String) : List FmtPart → String
  | [] => ""
  | FmtPart.lit s :: rest => s ++ render_fmt app model rest
  | FmtPart.app_label :: rest => app ++ render_fmt app model rest
  | FmtPart.model_name :: rest => model ++ render_fmt app model rest

def perms_map : List (String × List (List FmtPart)) :=
  [("GET", [[FmtPart.app_label, FmtPart.lit ".read_", FmtPart.model_name]]),
   ("OPTIONS", [[FmtPart.app_label, FmtPart.lit ".read_", FmtPart.model_name]]),
   ("HEAD", [[FmtPart.app_label, FmtPart.lit ".read_", FmtPart.model_name]]),
   ("POST", [[FmtPart.app_label, FmtPart.lit ".add_", FmtPart.model_name]]),
   ("PUT", [[FmtPart.app_label, FmtPart.lit ".change_", FmtPart.model_name]]),
   ("PATCH", [[FmtPart.app_label, FmtPart.lit ".change_", FmtPart.model_name]]),
   ("DELETE", [[FmtPart.app_label, FmtPart.lit ".delete_", FmtPart.model_name]])]

def required_permissions (method app model : String) : Option (List String) :=
  (perms_map.lookup method).map (List.map (render_fmt app model))

/-! Section: Audit log queries: `creator`, `authors`, `last_author`
(models.py lines 246-262)

A Django `LogEntry` row is embedded as a record of the columns the queries
read.  `ADDITION`, `CHANGE`, `DELETION` are the framework constants 1, 2, 3.
`order_by` on the primary key followed by `.last()` yields the row with the
greatest `pk` (the latest such row when `pk` values tie), embedded as a left
fold. -/

def ADDITION : Nat := 1

def CHANGE : Nat := 2

def DELETION : Nat := 3

structure PyLogEntry where
  pk : Nat
  content_type_id : Nat
  object_id : Nat
  action_flag : Nat
  user : Nat
deriving DecidableEq, Repr

def last_by_pk (l : List PyLogEntry) : Option PyLogEntry :=
  l.foldl (fun acc e =>
    match acc with
    | none => some e
    | some a => if a.pk ≤ e.pk then some e else some a) none

def creator (db : List PyLogEntry) (content_type_id object_id : Nat) : Option Nat :=
  (last_by_pk (db.filter (fun e =>
    e.content_type_id = content_type_id ∧ e.object_id = object_id ∧
      e.action_flag = ADDITION))).map PyLogEntry.user

def authors (db : List PyLogEntry) (content_type_id object_id : Nat) : List Nat :=
  ((db.filter (fun e =>
    e.content_type_id = content_type_id ∧ e.object_id = object_id)).map PyLogEntry.user).dedup

def last_author (db : List PyLogEntry) (content_type_id object_id : Nat) : Option Nat :=
  (last_by_pk (db.filter (fun e =>
    e.content_type_id = content_type_id ∧ e.object_id = object_id))).map PyLogEntry.user

/-! Section: `latest_updated` (models.py lines 117-123 and 316-321)

The ORM call `cls.objects.only(fname).latest(fname)` raises `FieldError`
when `fname` is not a field of the model and `DoesNotExist` when the table
is empty; otherwise it returns the row with the greatest value of `fname`.
A model class is embedded as the flag telling whether the configured
date-update field exists plus the column of date values (as integer
timestamps); `get_date_update` normalises the timezone, the identity on
timestamps. -/

inductive OrmError
  | doesNotExist
  | fieldError
deriving DecidableEq, Repr

def orm_latest (has_field : Bool) (values : List Int) : Except OrmError Int :=
  if has_field then
    match values.max? with
    | some v => Except.ok v
    | none => Except.error OrmError.doesNotExist
  else Except.error OrmError.fieldError

structure DjangoModel where
  has_date_field : Bool
  dates : List Int
deriving Repr

def latest_updated (m : DjangoModel) : Option Int :=
  match orm_latest m.has_date_field m.dates with
  | Except.ok v => some v
  | Except.error OrmError.doesNotExist => none
  | Except.error OrmError.fieldError => none

def logentry_latest_updated (action_times : List Int) : Option Int :=
  match orm_latest true action_times with
  | Except.ok v => some v
  | Except.error OrmError.doesNotExist => none
  | Except.error OrmError.fieldError => none

/-! Section: `BaseMapEntityMixin.prepare_map_image` (models.py lines 201-228)

The capture arithmetic (lines 216-223) is embedded over the reals:
`capture_zoom` is `round(math.log(CIRCUM / length_per_tile, 2))` with
`length_per_tile = 256 * length / hint_size`, and `capture_size` is
`math.ceil(length * 1.1 * 256 * 2 ** zoom / CIRCUM)`.

The method itself is embedded as a function from an environment — whether
`is_file_uptodate(path, date_update)` holds, whether `get_geom()` is
non-None, the Web Mercator extent `(xmin, ymin, xmax, ymax)` returned by
`get_map_image_extent(3857)`, and the `MAP_CAPTURE_SIZE` setting — to the
boolean the method returns paired with the list of filesystem effects it
performs (saving the grey placeholder image, or invoking
`capture_map_image` with the computed size).  Python evaluates
`if length:` as `length ≠ 0` on the float `length`. -/

noncomputable def RADIUS : ℝ := 6378137

noncomputable def CIRCUM : ℝ := 2 * Real.pi * RADIUS

noncomputable def capture_zoom (length hint_size : ℝ) : ℤ :=
  round (Real.logb 2 (CIRCUM / (256 * length / hint_size)))

noncomputable def capture_size (length hint_size : ℝ) : ℤ :=
  ⌈length * 1.1 * 256 * (2 : ℝ) ^ capture_zoom length hint_size / CIRCUM⌉

structure Extent where
  xmin : ℝ
  ymin : ℝ
  xmax : ℝ
  ymax : ℝ

structure MapImageEnv where
  uptodate : Bool
  has_geom : Bool
  extent : Extent
  map_capture_size : ℤ

inductive MapImageEffect
  | savePlaceholder (size : ℤ)
  | captureMapImage (size : ℤ)
deriving DecidableEq, Repr

noncomputable def env_length (env : MapImageEnv) : ℝ :=
  max (env.extent.xmax - env.extent.xmin) (env.extent.ymax - env.extent.ymin)

noncomputable def prepare_map_image (env : MapImageEnv) : Bool × List MapImageEffect :=
  if env.uptodate then (false, [])
  else if env.has_geom = false then
    (true, [MapImageEffect.savePlaceholder env.map_capture_size])
  else
    let length := env_length env
    let size : ℤ :=
      if length ≠ 0 then capture_size length (env.map_capture_size : ℝ)
      else env.map_capture_size
    (true, [MapImageEffect.captureMapImage size])

/-- Combining step of `order_by` on the primary key followed by `.last()`:
keep whichever of two rows comes later in ascending `pk` order. -/
def max_by_pk_step (a e : PyLogEntry) : PyLogEntry :=
  if a.pk ≤ e.pk then e else a

/-- Concrete capture environment: a stale image, a geometry with a 1 by 1
metre Web Mercator extent, and a `MAP_CAPTURE_SIZE` setting of 800. -/
def unit_env : MapImageEnv :=
  MapImageEnv.mk false true (Extent.mk 0 0 1 1) 800

/-! Section: theorems -/

lemma render_fmt_three (app model lit : String) :
    render_fmt app model [FmtPart.app_label, FmtPart.lit lit, FmtPart.model_name] =
      app ++ lit ++ model := by
  simp [render_fmt, String.append_empty, String.append_assoc]

lemma last_by_pk_cons (y : PyLogEntry) (ys : List PyLogEntry) :
    last_by_pk (y :: ys) = some (ys.foldl max_by_pk_step y) := by
  show List.foldl _ (some y) ys = _
  induction ys generalizing y with
  | nil => rfl
  | cons z zs ih =>
    simp only [List.foldl]
    have hacc : (if y.pk ≤ z.pk then some z else some y) = some (max_by_pk_step y z) := by
      by_cases h : y.pk ≤ z.pk <;> simp [h, max_by_pk_step]
    rw [hacc, ih]

lemma foldl_max_by_pk_spec (xs : List PyLogEntry) (a e : PyLogEntry)
    (hmem : e = a ∨ e ∈ xs)
    (hmax : ∀ x, (x = a ∨ x ∈ xs) → x ≠ e → x.pk < e.pk) :
    xs.foldl max_by_pk_step a = e := by
  induction xs generalizing a with
  | nil =>
    rcases hmem with rfl | h
    · rfl
    · cases h
  | cons y ys ih =>
    simp only [List.foldl]
    have hstep : max_by_pk_step a y = a ∨ max_by_pk_step a y = y := by
      unfold max_by_pk_step
      split <;> simp
    apply ih
    · rcases hmem with rfl | hm
      · by_cases hy : y = e
        · subst hy
          rcases hstep with h | h <;> exact Or.inl h.symm
        · have hlt : y.pk < e.pk :=
            hmax y (Or.inr (List.mem_cons_self y ys)) hy
          left
          unfold max_by_pk_step
          rw [if_neg (by omega)]
      · rcases List.mem_cons.mp hm with rfl | hm'
        · by_cases ha : a = e
          · subst ha
            rcases hstep with h | h <;> exact Or.inl h.symm
          · have hlt : a.pk < e.pk := hmax a (Or.inl rfl) ha
            left
            unfold max_by_pk_step
            rw [if_pos (by omega)]
        · exact Or.inr hm'
    · intro x hx hne
      rcases hx with rfl | hx
      · rcases hstep with h | h
        · rw [h]
          exact hmax a (Or.inl rfl) (h ▸ hne)
        · rw [h]
          exact hmax y (Or.inr (List.mem_cons_self y ys)) (h ▸ hne)
      · exact hmax x (Or.inr (List.mem_cons_of_mem y hx)) hne

lemma last_by_pk_spec (l : List PyLogEntry) (e : PyLogEntry) (he : e ∈ l)
    (hmax : ∀ x ∈ l, x ≠ e → x.pk < e.pk) :
    last_by_pk l = some e := by
  cases l with
  | nil => cases he
  | cons y ys =>
    rw [last_by_pk_cons]
    congr 1
    apply foldl_max_by_pk_spec
    · rcases List.mem_cons.mp he with rfl | h
      · exact Or.inl rfl
      · exact Or.inr h
    · intro x hx hne
      rcases hx with rfl | hx
      · exact hmax x (List.mem_cons_self x ys) hne
      · exact hmax x (List.mem_cons_of_mem y hx) hne

/-- C1: for every entity kind in `ENTITY_KINDS`, `get_entity_kind_permission`
returns (rather than raising `AssertionError`) a permission string in
`ENTITY_PERMISSIONS`, mapping `add` to `add`, `update` and `update_geom` to
`change` and `change_geom`, `delete` to `delete`, the read-style kinds
(`detail`, `layer`, `list`, `-drf-list`, `markup`) to `read`, and the
export-style kinds (`format_list`, `mapimage`, `document`) to `export`
(the mapping `spec_kind_permission` is the wording of the claim itself). -/
theorem get_entity_kind_permission_maps_kinds (k : String) (hk : k ∈ ENTITY_KINDS) :
    get_entity_kind_permission k = some (spec_kind_permission k) ∧
      spec_kind_permission k ∈ ENTITY_PERMISSIONS := by
  fin_cases hk <;> exact ⟨by decide, by decide⟩

theorem get_entity_kind_permission_maps_kinds_w :
    ENTITY_UPDATE ∈ ENTITY_KINDS ∧
      (get_entity_kind_permission ENTITY_UPDATE = some (spec_kind_permission ENTITY_UPDATE) ∧
        spec_kind_permission ENTITY_UPDATE ∈ ENTITY_PERMISSIONS) :=
  ⟨by decide, get_entity_kind_permission_maps_kinds ENTITY_UPDATE (by decide)⟩

/-- C5: for every HTTP method handled by `MapEntityRestPermissions`, the
permission map requires exactly one model permission: `read` for GET,
OPTIONS and HEAD, `add` for POST, `change` for PUT and PATCH, and `delete`
for DELETE, each qualified by the app label and model name of the model. -/
theorem perms_map_spec (app model : String) :
    required_permissions "GET" app model = some [app ++ ".read_" ++ model] ∧
    required_permissions "OPTIONS" app model = some [app ++ ".read_" ++ model] ∧
    required_permissions "HEAD" app model = some [app ++ ".read_" ++ model] ∧
    required_permissions "POST" app model = some [app ++ ".add_" ++ model] ∧
    required_permissions "PUT" app model = some [app ++ ".change_" ++ model] ∧
    required_permissions "PATCH" app model = some [app ++ ".change_" ++ model] ∧
    required_permissions "DELETE" app model = some [app ++ ".delete_" ++ model] := by
  have hGET : required_permissions "GET" app model =
      some [render_fmt app model [FmtPart.app_label, FmtPart.lit ".read_", FmtPart.model_name]] :=
    rfl
  have hOPTIONS : required_permissions "OPTIONS" app model =
      some [render_fmt app model [FmtPart.app_label, FmtPart.lit ".read_", FmtPart.model_name]] :=
    rfl
  have hHEAD : required_permissions "HEAD" app model =
      some [render_fmt app model [FmtPart.app_label, FmtPart.lit ".read_", FmtPart.model_name]] :=
    rfl
  have hPOST : required_permissions "POST" app model =
      some [render_fmt app model [FmtPart.app_label, FmtPart.lit ".add_", FmtPart.model_name]] :=
    rfl
  have hPUT : required_permissions "PUT" app model =
      some [render_fmt app model [FmtPart.app_label, FmtPart.lit ".change_", FmtPart.model_name]] :=
    rfl
  have hPATCH : required_permissions "PATCH" app model =
      some [render_fmt app model [FmtPart.app_label, FmtPart.lit ".change_", FmtPart.model_name]] :=
    rfl
  have hDELETE : required_permissions "DELETE" app model =
      some [render_fmt app model [FmtPart.app_label, FmtPart.lit ".delete_", FmtPart.model_name]] :=
    rfl
  exact ⟨by rw [hGET, render_fmt_three], by rw [hOPTIONS, render_fmt_three],
    by rw [hHEAD, render_fmt_three], by rw [hPOST, render_fmt_three],
    by rw [hPUT, render_fmt_three], by rw [hPATCH, render_fmt_three],
    by rw [hDELETE, render_fmt_three]⟩

/-- C7: for every model class, with `m` its lowercased model name,
`get_layer_url` returns exactly `/api/` ++ m ++ `/drf/` ++ m ++ `s.geojson`
and `get_datatablelist_url` returns exactly
`/api/` ++ m ++ `/drf/` ++ m ++ `s.datatables`; both URLs are derived purely
from the model name. -/
theorem layer_and_datatable_url_spec (name : String) :
    get_layer_url name =
      "/api/" ++ name.toLower ++ "/drf/" ++ name.toLower ++ "s.geojson" ∧
    get_datatablelist_url name =
      "/api/" ++ name.toLower ++ "/drf/" ++ name.toLower ++ "s.datatables" :=
  ⟨rfl, rfl⟩

/-- C10: for every object whose on-disk map image file is already up to
date with respect to the last update date of the object, `prepare_map_image`
returns `False` and performs no side effect. -/
theorem prepare_map_image_uptodate (env : MapImageEnv) (hu : env.uptodate = true) :
    prepare_map_image env = (false, []) := by
  simp [prepare_map_image, hu]

theorem prepare_map_image_uptodate_w :
    (MapImageEnv.mk true true (Extent.mk 0 0 1 1) 512).uptodate = true ∧
      prepare_map_image (MapImageEnv.mk true true (Extent.mk 0 0 1 1) 512) = (false, []) :=
  ⟨rfl, prepare_map_image_uptodate (MapImageEnv.mk true true (Extent.mk 0 0 1 1) 512) rfl⟩

/-- C9: for every object whose geometry extent is degenerate (maximal side
length zero, e.g. a point), `prepare_map_image` takes the `else` branch
around the zoom/size arithmetic — `capture_zoom` and `capture_size` are
never applied — and the capture size falls back to the configured
`MAP_CAPTURE_SIZE`. -/
theorem prepare_map_image_degenerate (env : MapImageEnv)
    (hu : env.uptodate = false) (hg : env.has_geom = true)
    (hL : env_length env = 0) :
    prepare_map_image env =
      (true, [MapImageEffect.captureMapImage env.map_capture_size]) := by
  simp [prepare_map_image, hu, hg, hL]

/-- C8: the assertion inside `get_entity_kind_permission` holds — the
function returns instead of raising `AssertionError` — exactly when the
input is a member of `ENTITY_KINDS` or itself a member of
`ENTITY_PERMISSIONS`; for any other input the assertion fails. -/
theorem get_entity_kind_permission_assert_iff (s : String) :
    (get_entity_kind_permission s).isSome = true ↔
      s ∈ ENTITY_KINDS ∨ s ∈ ENTITY_PERMISSIONS := by
  constructor
  · intro h
    by_contra hc
    push_neg at hc
    obtain ⟨hk, hp⟩ := hc
    have hne : ∀ t : String, t ∈ ENTITY_KINDS → s ≠ t := by
      intro t ht hEq
      exact hk (hEq ▸ ht)
    have ho : operations_get s = s := by
      unfold operations_get
      rw [if_neg (hne ENTITY_CREATE (by decide)), if_neg (hne ENTITY_UPDATE (by decide)),
        if_neg (hne ENTITY_UPDATE_GEOM (by decide)), if_neg (hne ENTITY_DELETE (by decide)),
        if_neg (hne ENTITY_DETAIL (by decide)), if_neg (hne ENTITY_LAYER (by decide)),
        if_neg (hne ENTITY_LIST (by decide)), if_neg (hne ENTITY_DATATABLE_LIST (by decide)),
        if_neg (hne ENTITY_MARKUP (by decide)), if_neg (hne ENTITY_FORMAT_LIST (by decide)),
        if_neg (hne ENTITY_MAPIMAGE (by decide)), if_neg (hne ENTITY_DOCUMENT (by decide))]
    unfold get_entity_kind_permission at h
    rw [ho, if_neg hp] at h
    simp at h
  · intro h
    rcases h with hk | hp
    · fin_cases hk <;> decide
    · fin_cases hp <;> decide

/-- C6: `latest_updated` returns `None` instead of raising when the model
has no rows (`DoesNotExist`) or when the configured date-update field does
not exist on the model (`FieldError`); otherwise it returns the update date
of the most recently updated object.  The last two conjuncts state the same
for the `LogEntry` override, which orders by `action_time`. -/
theorem latest_updated_spec (m : DjangoModel) (l : List Int) :
    (m.has_date_field = false → latest_updated m = none) ∧
    (m.dates = [] → latest_updated m = none) ∧
    (∀ d, m.has_date_field = true → m.dates.max? = some d → latest_updated m = some d) ∧
    (l = [] → logentry_latest_updated l = none) ∧
    (∀ d, l.max? = some d → logentry_latest_updated l = some d) := by
  refine ⟨?_, ?_, ?_, ?_, ?_⟩
  · intro h
    simp [latest_updated, orm_latest, h]
  · intro h
    cases hf : m.has_date_field <;> simp [latest_updated, orm_latest, hf, h]
  · intro d hf hmax
    simp [latest_updated, orm_latest, hf, hmax]
  · intro h
    simp [logentry_latest_updated, orm_latest, h]
  · intro d hmax
    simp [logentry_latest_updated, orm_latest, hmax]

theorem latest_updated_spec_w :
    (DjangoModel.mk true [3, 7, 5]).dates.max? = some 7 ∧
    latest_updated (DjangoModel.mk true [3, 7, 5]) = some 7 ∧
    ([2, 9] : List Int).max? = some 9 ∧
    logentry_latest_updated [2, 9] = some 9 := by
  have ht := latest_updated_spec (DjangoModel.mk true [3, 7, 5]) [2, 9]
  have h1 : (DjangoModel.mk true [3, 7, 5]).dates.max? = some 7 := by decide
  have h2 : ([2, 9] : List Int).max? = some 9 := by decide
  exact ⟨h1, ht.2.2.1 7 rfl h1, h2, ht.2.2.2.2 9 h2⟩

/-- C3: the `creator` property returns the user of the audit-log entry with
the greatest primary key among entries matching the content type and
primary key of the object with action flag `ADDITION`; when no such entry
exists it returns the falsy `None` rather than raising. -/
theorem creator_spec (db : List PyLogEntry) (ct oid : Nat) (e : PyLogEntry)
    (he : e ∈ db) (hect : e.content_type_id = ct) (heo : e.object_id = oid)
    (hea : e.action_flag = ADDITION)
    (hmax : ∀ x ∈ db, x.content_type_id = ct → x.object_id = oid →
      x.action_flag = ADDITION → x ≠ e → x.pk < e.pk) :
    creator db ct oid = some e.user ∧
      ∀ db2 : List PyLogEntry,
        (∀ x ∈ db2, ¬(x.content_type_id = ct ∧ x.object_id = oid ∧
          x.action_flag = ADDITION)) →
          creator db2 ct oid = none := by
  constructor
  · unfold creator
    rw [last_by_pk_spec _ e ?hmem ?hmx]
    case hmem =>
      rw [List.mem_filter]
      exact ⟨he, by simp [hect, heo, hea]⟩
    case hmx =>
      intro x hx hne
      rw [List.mem_filter] at hx
      obtain ⟨hxdb, hxp⟩ := hx
      simp only [decide_eq_true_eq] at hxp
      exact hmax x hxdb hxp.1 hxp.2.1 hxp.2.2 hne
    rfl
  · intro db2 hnone
    unfold creator
    rw [List.filter_eq_nil_iff.mpr ?hnil]
    case hnil =>
      intro x hx
      simp only [decide_eq_true_eq]
      exact hnone x hx
    rfl

/-- C4: `last_author` returns the user, among the distinct users having any
audit-log entry matching the content type and object id of the object, who
authored the matching log entry with the greatest primary key; when the
object has no matching log entries it returns `None`. -/
theorem last_author_spec (db : List PyLogEntry) (ct oid : Nat) (e : PyLogEntry)
    (he : e ∈ db) (hect : e.content_type_id = ct) (heo : e.object_id = oid)
    (hmax : ∀ x ∈ db, x.content_type_id = ct → x.object_id = oid →
      x ≠ e → x.pk < e.pk) :
    last_author db ct oid = some e.user ∧
      e.user ∈ authors db ct oid ∧
      ∀ db2 : List PyLogEntry,
        (∀ x ∈ db2, ¬(x.content_type_id = ct ∧ x.object_id = oid)) →
          last_author db2 ct oid = none := by
  refine ⟨?_, ?_, ?_⟩
  · unfold last_author
    rw [last_by_pk_spec _ e ?hmem ?hmx]
    case hmem =>
      rw [List.mem_filter]
      exact ⟨he, by simp [hect, heo]⟩
    case hmx =>
      intro x hx hne
      rw [List.mem_filter] at hx
      obtain ⟨hxdb, hxp⟩ := hx
      simp only [decide_eq_true_eq] at hxp
      exact hmax x hxdb hxp.1 hxp.2 hne
    rfl
  · unfold authors
    rw [List.mem_dedup]
    exact List.mem_map.mpr ⟨e, List.mem_filter.mpr ⟨he, by simp [hect, heo]⟩, rfl⟩
  · intro db2 hnone
    unfold last_author
    rw [List.filter_eq_nil_iff.mpr ?hnil]
    case hnil =>
      intro x hx
      simp only [decide_eq_true_eq]
      exact hnone x hx
    rfl

theorem prepare_map_image_degenerate_w :
    env_length (MapImageEnv.mk false true (Extent.mk 2 3 2 3) 512) = 0 ∧
      prepare_map_image (MapImageEnv.mk false true (Extent.mk 2 3 2 3) 512) =
        (true, [MapImageEffect.captureMapImage 512]) := by
  have h : env_length (MapImageEnv.mk false true (Extent.mk 2 3 2 3) 512) = 0 := by
    simp [env_length]
  exact ⟨h, prepare_map_image_degenerate _ rfl rfl h⟩

lemma prepare_map_image_main (env : MapImageEnv) (hu : env.uptodate = false)
    (hg : env.has_geom = true) (hL0 : env_length env ≠ 0) :
    prepare_map_image env =
      (true, [MapImageEffect.captureMapImage
        (capture_size (env_length env) (env.map_capture_size : ℝ))]) := by
  simp [prepare_map_image, hu, hg, hL0]

/-- C2: for every object whose Web Mercator extent has positive maximal
side length `L` and positive configured capture size hint, the capture
zoom computed by `prepare_map_image` equals
`round (logb 2 (CIRCUM * hint / (256 * L)))` with
`CIRCUM = 2 * pi * 6378137` the Web Mercator circumference, and the
capture size passed to `capture_map_image` equals
`ceil (L * 1.1 * 256 * 2 ^ zoom / CIRCUM)`. -/
theorem prepare_map_image_tile_math (env : MapImageEnv)
    (hu : env.uptodate = false) (hg : env.has_geom = true)
    (hL : 0 < env_length env) (hh : 0 < (env.map_capture_size : ℝ)) :
    capture_zoom (env_length env) (env.map_capture_size : ℝ) =
      round (Real.logb 2
        (CIRCUM * (env.map_capture_size : ℝ) / (256 * env_length env))) ∧
    prepare_map_image env =
      (true,
        [MapImageEffect.captureMapImage
          ⌈env_length env * 1.1 * 256 *
              (2 : ℝ) ^
                round (Real.logb 2
                  (CIRCUM * (env.map_capture_size : ℝ) / (256 * env_length env))) /
              CIRCUM⌉]) := by
  have hL0 : env_length env ≠ 0 := ne_of_gt hL
  have hh0 : (env.map_capture_size : ℝ) ≠ 0 := ne_of_gt hh
  have harg : CIRCUM / (256 * env_length env / (env.map_capture_size : ℝ)) =
      CIRCUM * (env.map_capture_size : ℝ) / (256 * env_length env) := by
    field_simp
  have hz : capture_zoom (env_length env) (env.map_capture_size : ℝ) =
      round (Real.logb 2
        (CIRCUM * (env.map_capture_size : ℝ) / (256 * env_length env))) := by
    unfold capture_zoom
    rw [harg]
  refine ⟨hz, ?_⟩
  rw [prepare_map_image_main env hu hg hL0]
  unfold capture_size
  rw [hz]

theorem prepare_map_image_tile_math_w :
    0 < env_length unit_env ∧ 0 < ((unit_env.map_capture_size : ℤ) : ℝ) ∧
      (capture_zoom (env_length unit_env) (unit_env.map_capture_size : ℝ) =
        round (Real.logb 2
          (CIRCUM * (unit_env.map_capture_size : ℝ) / (256 * env_length unit_env))) ∧
      prepare_map_image unit_env =
        (true,
          [MapImageEffect.captureMapImage
            ⌈env_length unit_env * 1.1 * 256 *
                (2 : ℝ) ^
                  round (Real.logb 2
                    (CIRCUM * (unit_env.map_capture_size : ℝ) /
                      (256 * env_length unit_env))) /
                CIRCUM⌉])) := by
  have hL : 0 < env_length unit_env := by
    norm_num [env_length, unit_env]
  have hh : 0 < ((unit_env.map_capture_size : ℤ) : ℝ) := by
    norm_num [unit_env]
  exact ⟨hL, hh, prepare_map_image_tile_math unit_env rfl rfl hL hh⟩

theorem creator_spec_w :
    (PyLogEntry.mk 3 10 20 1 102) ∈
        [PyLogEntry.mk 1 10 20 1 100, PyLogEntry.mk 2 10 20 2 101,
          PyLogEntry.mk 3 10 20 1 102, PyLogEntry.mk 4 11 20 1 103] ∧
      (∀ x ∈ [PyLogEntry.mk 1 10 20 1 100, PyLogEntry.mk 2 10 20 2 101,
          PyLogEntry.mk 3 10 20 1 102, PyLogEntry.mk 4 11 20 1 103],
        x.content_type_id = 10 → x.object_id = 20 → x.action_flag = ADDITION →
          x ≠ PyLogEntry.mk 3 10 20 1 102 → x.pk < (PyLogEntry.mk 3 10 20 1 102).pk) ∧
      creator
        [PyLogEntry.mk 1 10 20 1 100, PyLogEntry.mk 2 10 20 2 101,
          PyLogEntry.mk 3 10 20 1 102, PyLogEntry.mk 4 11 20 1 103] 10 20 = some 102 := by
  refine ⟨by decide, by decide, ?_⟩
  exact (creator_spec _ 10 20 (PyLogEntry.mk 3 10 20 1 102)
    (by decide) rfl rfl rfl (by decide)).1

theorem last_author_spec_w :
    (PyLogEntry.mk 4 11 20 1 103) ∈
        [PyLogEntry.mk 1 11 20 1 100, PyLogEntry.mk 2 11 20 2 101,
          PyLogEntry.mk 4 11 20 1 103, PyLogEntry.mk 9 12 20 1 104] ∧
      (∀ x ∈ [PyLogEntry.mk 1 11 20 1 100, PyLogEntry.mk 2 11 20 2 101,
          PyLogEntry.mk 4 11 20 1 103, PyLogEntry.mk 9 12 20 1 104],
        x.content_type_id = 11 → x.object_id = 20 →
          x ≠ PyLogEntry.mk 4 11 20 1 103 → x.pk < (PyLogEntry.mk 4 11 20 1 103).pk) ∧
      last_author
        [PyLogEntry.mk 1 11 20 1 100, PyLogEntry.mk 2 11 20 2 101,
          PyLogEntry.mk 4 11 20 1 103, PyLogEntry.mk 9 12 20 1 104] 11 20 = some 103 ∧
      (103 : Nat) ∈ authors
        [PyLogEntry.mk 1 11 20 1 100, PyLogEntry.mk 2 11 20 2 101,
          PyLogEntry.mk 4 11 20 1 103, PyLogEntry.mk 9 12 20 1 104] 11 20 := by
  refine ⟨by decide, by decide, ?_, ?_⟩
  · exact (last_author_spec _ 11 20 (PyLogEntry.mk 4 11 20 1 103)
      (by decide) rfl rfl (by decide)).1
  · exact (last_author_spec _ 11 20 (PyLogEntry.mk 4 11 20 1 103)
      (by decide) rfl rfl (by decide)).2.1

end Mapentity
